import Mathlib

/-!
Verification development for the collaborative email editor
(`static/js/collaboration.js`).  Text content is modelled as `List Char`,
user ids and field kinds as `String`, timestamps as `Nat`.  DOM editable
fields (`emailSubject`, `emailBody`) are modelled as always present.
-/

namespace GmailCollab

/-- `hay.indexOf(needle)` of JavaScript strings, returning `none` for `-1`:
the least index at which `needle` occurs as a contiguous substring. -/
def indexOfSub (needle : List Char) : List Char → Option Nat
  | [] => if needle.isPrefixOf ([] : List Char) then some 0 else none
  | c :: t =>
    if needle.isPrefixOf (c :: t) then some 0
    else (indexOfSub needle t).map (· + 1)

/-- `Math.round(num / den)` for non-negative exact rationals:
round half away from zero, i.e. `⌊num/den + 1/2⌋`. -/
def jsRound (num den : Nat) : Nat := (2 * num + den) / (2 * den)

/-- `calculateNewCursorPosition(oldContent, newContent, oldCursor)` from
`collaboration.js` lines 280-299: prefix match first, then suffix match,
then proportional fallback `Math.round(newLength * oldCursor / oldLength)`. -/
def calculateNewCursorPosition (oldContent newContent : List Char) (oldCursor : Nat) : Nat :=
  match indexOfSub (oldContent.take oldCursor) newContent with
  | some i => i + (oldContent.take oldCursor).length
  | none =>
    match indexOfSub (oldContent.drop oldCursor) newContent with
    | some i => i
    | none => jsRound (newContent.length * oldCursor) oldContent.length

theorem nil_isPrefixOf_eq_true (l : List Char) : ([] : List Char).isPrefixOf l = true := by
  cases l <;> rfl

theorem eq_nil_of_isPrefixOf_nil {a : List Char} (h : a.isPrefixOf ([] : List Char) = true) :
    a = [] := by
  cases a with
  | nil => rfl
  | cons x xs => simp [List.isPrefixOf] at h

theorem isPrefixOf_length_le : ∀ {a b : List Char}, a.isPrefixOf b = true → a.length ≤ b.length
  | [], _, _ => Nat.zero_le _
  | _ :: _, [], h => by simp [List.isPrefixOf] at h
  | x :: xs, y :: ys, h => by
    simp only [List.isPrefixOf, Bool.and_eq_true] at h
    simpa using isPrefixOf_length_le h.2

/-- `indexOfSub` returns the least index at which the needle occurs. -/
theorem indexOfSub_eq_some {needle : List Char} :
    ∀ {hay : List Char} {i : Nat}, indexOfSub needle hay = some i →
      needle.isPrefixOf (hay.drop i) = true ∧
      ∀ j, j < i → needle.isPrefixOf (hay.drop j) = false
  | [], i, h => by
    unfold indexOfSub at h
    split at h
    · rename_i hp
      cases h
      exact ⟨hp, fun j hj => absurd hj (Nat.not_lt_zero j)⟩
    · exact absurd h (by simp)
  | c :: t, i, h => by
    unfold indexOfSub at h
    split at h
    · rename_i hp
      cases h
      exact ⟨hp, fun j hj => absurd hj (Nat.not_lt_zero j)⟩
    · rename_i hp
      cases hk : indexOfSub needle t with
      | none => rw [hk] at h; simp at h
      | some k =>
        rw [hk] at h
        simp only [Option.map_some'] at h
        obtain ⟨h1, h2⟩ := indexOfSub_eq_some hk
        cases h
        refine ⟨by simpa using h1, ?_⟩
        intro j hj
        cases j with
        | zero => simpa using Bool.eq_false_iff.mpr hp
        | succ j' =>
          simpa using h2 j' (Nat.lt_of_succ_lt_succ hj)

/-- `indexOfSub` returns `none` only when the needle occurs nowhere. -/
theorem indexOfSub_eq_none {needle : List Char} :
    ∀ {hay : List Char}, indexOfSub needle hay = none →
      ∀ i, needle.isPrefixOf (hay.drop i) = false
  | [], h, i => by
    unfold indexOfSub at h
    split at h
    · exact absurd h (by simp)
    · rename_i hp
      simpa using Bool.eq_false_iff.mpr hp
  | c :: t, h, i => by
    unfold indexOfSub at h
    split at h
    · exact absurd h (by simp)
    · rename_i hp
      cases hk : indexOfSub needle t with
      | some k => rw [hk] at h; simp at h
      | none =>
        cases i with
        | zero => simpa using Bool.eq_false_iff.mpr hp
        | succ i' => simpa using indexOfSub_eq_none hk i'

/-- If `i` is an occurrence of the needle and no smaller index is,
then `indexOfSub` returns exactly `i`. -/
theorem indexOfSub_eq_some_of_first {needle hay : List Char} {i : Nat}
    (hi : needle.isPrefixOf (hay.drop i) = true)
    (hmin : ∀ j, j < i → needle.isPrefixOf (hay.drop j) = false) :
    indexOfSub needle hay = some i := by
  cases heq : indexOfSub needle hay with
  | none => exact absurd (indexOfSub_eq_none heq i) (by simp [hi])
  | some k =>
    obtain ⟨h1, h2⟩ := indexOfSub_eq_some heq
    have hik : i = k := by
      rcases Nat.lt_trichotomy i k with h | h | h
      · exact absurd (h2 i h) (by simp [hi])
      · exact h
      · exact absurd (hmin k h) (by simp [h1])
    rw [hik]

/-- If the needle occurs nowhere, `indexOfSub` returns `none`. -/
theorem indexOfSub_eq_none_of_nowhere {needle hay : List Char}
    (h : ∀ i, needle.isPrefixOf (hay.drop i) = false) :
    indexOfSub needle hay = none := by
  cases heq : indexOfSub needle hay with
  | none => rfl
  | some k =>
    obtain ⟨h1, _⟩ := indexOfSub_eq_some heq
    exact absurd (h k) (by simp [h1])

/-- C1: the recomputed caret position applies the rules in order, first match
winning: (a) if the text preceding the old caret occurs in the new content,
the caret goes immediately after that (first) occurrence; (b) else if the text
following the old caret occurs, the caret goes immediately before that (first)
occurrence; (c) else the caret is placed at
`round(newLength * oldCaret / oldLength)`.  In particular, for old content
"Hello world", old caret 5, new content "Hello, world", the result is 5. -/
theorem calculateNewCursorPosition_rules (old new : List Char) (caret : Nat)
    (hc : caret ≤ old.length) :
    ((∀ i, (old.take caret).isPrefixOf (new.drop i) = true →
        (∀ j, j < i → (old.take caret).isPrefixOf (new.drop j) = false) →
        calculateNewCursorPosition old new caret = i + caret) ∧
     ((∀ i, (old.take caret).isPrefixOf (new.drop i) = false) →
        ∀ i, (old.drop caret).isPrefixOf (new.drop i) = true →
          (∀ j, j < i → (old.drop caret).isPrefixOf (new.drop j) = false) →
          calculateNewCursorPosition old new caret = i) ∧
     ((∀ i, (old.take caret).isPrefixOf (new.drop i) = false) →
        (∀ i, (old.drop caret).isPrefixOf (new.drop i) = false) →
        calculateNewCursorPosition old new caret = jsRound (new.length * caret) old.length) ∧
     calculateNewCursorPosition ("Hello world".toList) ("Hello, world".toList) 5 = 5) := by
  refine ⟨?_, ?_, ?_, by decide⟩
  · intro i hi hmin
    unfold calculateNewCursorPosition
    rw [indexOfSub_eq_some_of_first hi hmin]
    show i + (old.take caret).length = i + caret
    rw [List.length_take, Nat.min_eq_left hc]
  · intro hnone i hi hmin
    unfold calculateNewCursorPosition
    rw [indexOfSub_eq_none_of_nowhere hnone, indexOfSub_eq_some_of_first hi hmin]
  · intro hnone1 hnone2
    unfold calculateNewCursorPosition
    rw [indexOfSub_eq_none_of_nowhere hnone1, indexOfSub_eq_none_of_nowhere hnone2]

/-- Witness for C1 at old content "Hello world", caret 5, new content
"Hello, world". -/
theorem calculateNewCursorPosition_rules_witness :
    calculateNewCursorPosition ("Hello world".toList) ("Hello, world".toList) 5 = 5 :=
  (calculateNewCursorPosition_rules ("Hello world".toList) ("Hello, world".toList) 5
    (by decide)).2.2.2

/-- C7: the cursor recomputation is total and always yields an offset in
`[0, length(newContent)]` whenever `oldCaret ≤ length(oldContent)`. -/
theorem calculateNewCursorPosition_le (old new : List Char) (caret : Nat)
    (hc : caret ≤ old.length) :
    calculateNewCursorPosition old new caret ≤ new.length := by
  unfold calculateNewCursorPosition
  cases heq1 : indexOfSub (old.take caret) new with
  | some k =>
    obtain ⟨h1, h2⟩ := indexOfSub_eq_some heq1
    show k + (old.take caret).length ≤ new.length
    by_cases hb : old.take caret = []
    · have hk0 : k = 0 := by
        by_contra hk
        have h0 := h2 0 (Nat.pos_of_ne_zero hk)
        rw [hb] at h0
        simp [nil_isPrefixOf_eq_true] at h0
      subst hk0
      simp [hb]
    · have hlen := isPrefixOf_length_le h1
      have hdropne : new.drop k ≠ [] := by
        intro hnil
        rw [hnil] at h1
        exact hb (eq_nil_of_isPrefixOf_nil h1)
      have hklt : k < new.length := by
        by_contra hk
        push_neg at hk
        exact hdropne (List.drop_eq_nil_of_le hk)
      rw [List.length_drop] at hlen
      omega
  | none =>
    cases heq2 : indexOfSub (old.drop caret) new with
    | some k =>
      obtain ⟨h1, h2⟩ := indexOfSub_eq_some heq2
      show k ≤ new.length
      by_cases ha : old.drop caret = []
      · have hk0 : k = 0 := by
          by_contra hk
          have h0 := h2 0 (Nat.pos_of_ne_zero hk)
          rw [ha] at h0
          simp [nil_isPrefixOf_eq_true] at h0
        subst hk0
        exact Nat.zero_le _
      · have hdropne : new.drop k ≠ [] := by
          intro hnil
          rw [hnil] at h1
          exact ha (eq_nil_of_isPrefixOf_nil h1)
        have hklt : k < new.length := by
          by_contra hk
          push_neg at hk
          exact hdropne (List.drop_eq_nil_of_le hk)
        omega
    | none =>
      show jsRound (new.length * caret) old.length ≤ new.length
      have hbne : old.take caret ≠ [] := by
        intro hnil
        have h0 := indexOfSub_eq_none heq1 0
        rw [hnil] at h0
        simp [nil_isPrefixOf_eq_true] at h0
      have hcaret : 0 < caret := by
        by_contra hcz
        push_neg at hcz
        interval_cases caret
        simp at hbne
      have hold : 0 < old.length := Nat.lt_of_lt_of_le hcaret hc
      unfold jsRound
      have hx : new.length * caret ≤ new.length * old.length :=
        Nat.mul_le_mul (Nat.le_refl _) hc
      have h2x : 2 * (new.length * caret) ≤ 2 * (new.length * old.length) :=
        Nat.mul_le_mul (Nat.le_refl 2) hx
      calc (2 * (new.length * caret) + old.length) / (2 * old.length)
          ≤ (2 * old.length * new.length + old.length) / (2 * old.length) := by
            apply Nat.div_le_div_right
            calc 2 * (new.length * caret) + old.length
                ≤ 2 * (new.length * old.length) + old.length :=
                  Nat.add_le_add_right h2x _
              _ = 2 * old.length * new.length + old.length := by ring
        _ = new.length + old.length / (2 * old.length) :=
            Nat.mul_add_div (by omega) _ _
        _ = new.length := by rw [Nat.div_eq_of_lt (by omega)]; omega

/-- Witness for C7 at old content "ab", caret 2, new content "xyz". -/
theorem calculateNewCursorPosition_le_witness :
    calculateNewCursorPosition ("ab".toList) ("xyz".toList) 2 ≤ ("xyz".toList).length :=
  calculateNewCursorPosition_le ("ab".toList) ("xyz".toList) 2 (by decide)

/-- One entry of `this.contentHistory`: field kind string, content,
timestamp, originating user id, and the `applied` flag set on records
appended by `applyContentUpdate` (absent, modelled `false`, on local ones). -/
structure ContentRecord where
  type : String
  content : List Char
  timestamp : Nat
  userId : String
  applied : Bool
deriving DecidableEq, Repr

/-- An editable DOM field (`emailSubject` / `emailBody`): its `value` and
`selectionStart` caret offset. -/
structure EditableField where
  value : List Char
  selectionStart : Nat
deriving DecidableEq, Repr

/-- One entry of `this.collaborators`. -/
structure Collaborator where
  id : String
  name : String
  cursorPosition : Nat
  lastSeen : Nat
deriving DecidableEq, Repr

/-- An event emitted on the websocket channel by the local client. -/
inductive OutEvent where
  | contentChange (emailId : String) (content : List Char) (contentType : String)
      (timestamp : Nat)
  | cursorUpdate (emailId : String) (position : Nat)
  | joinEvent (emailId : String)
  | leaveEvent (emailId : String)
deriving DecidableEq, Repr

/-- The state of a `CollaborationManager` together with the two editable
fields it manipulates.  `markers` is the list of collaborator ids whose
cursor indicator element is currently in the DOM; `outbox` records every
`ws.emit` performed. -/
structure SessionState where
  emailId : String
  hasWs : Bool
  isActive : Bool
  currentUser : Option String
  collaborators : List Collaborator
  subject : EditableField
  body : EditableField
  contentHistory : List ContentRecord
  markers : List String
  outbox : List OutEvent
deriving DecidableEq, Repr

/-- Payload of an inbound `content_updated` event. -/
structure ContentEvent where
  user_id : String
  content : List Char
  content_type : String
  timestamp : Nat
deriving DecidableEq, Repr

/-- Payload of an inbound `cursor_moved` event. -/
structure CursorEvent where
  user_id : String
  cursor_position : Nat
deriving DecidableEq, Repr

/-- `getCurrentUserId()`: `window.currentUser?.id || 'anonymous'` — the
sentinel "anonymous" when there is no current user (or a falsy empty id). -/
def getCurrentUserId (s : SessionState) : String :=
  match s.currentUser with
  | none => "anonymous"
  | some id => if id = "" then "anonymous" else id

/-- The editable field a field-kind string selects: `'subject'` targets the
subject field, anything else the body (the ternary in the source). -/
def fieldFor (contentType : String) (s : SessionState) : EditableField :=
  if contentType = "subject" then s.subject else s.body

/-- `applyContentUpdate(data)` lines 247-278: replace the target field's
value, recompute the caret with `calculateNewCursorPosition`, and append a
history record with `applied: true`.  No truncation of the history here. -/
def applyContentUpdate (s : SessionState) (d : ContentEvent) : SessionState :=
  let isSubject := d.content_type = "subject"
  let target := if isSubject then s.subject else s.body
  let newCursor := calculateNewCursorPosition target.value d.content target.selectionStart
  let newField : EditableField := { value := d.content, selectionStart := newCursor }
  let s' := if isSubject then { s with subject := newField } else { s with body := newField }
  { s' with contentHistory :=
      s'.contentHistory ++ [⟨d.content_type, d.content, d.timestamp, d.user_id, true⟩] }

/-- `handleContentUpdated(data)` lines 224-237: drop self-originated events,
otherwise apply the update (the update indicator is transient UI only). -/
def handleContentUpdated (s : SessionState) (d : ContentEvent) : SessionState :=
  if d.user_id = getCurrentUserId s then s else applyContentUpdate s d

/-- `updateCollaboratorCursor(userId, position)` lines 392-401: ignore
unknown collaborators, otherwise record position/lastSeen and re-display
that collaborator's cursor marker (remove any existing one, append a new
one).  Note: no `isActive` check. -/
def updateCollaboratorCursor (s : SessionState) (userId : String) (position : Nat)
    (now : Nat) : SessionState :=
  match s.collaborators.find? (fun c => c.id = userId) with
  | none => s
  | some _ =>
    { s with
      collaborators := s.collaborators.map
        (fun c => if c.id = userId then { c with cursorPosition := position, lastSeen := now }
                  else c),
      markers := (s.markers.filter (fun m => m ≠ userId)) ++ [userId] }

/-- `handleCursorMoved(data)` lines 239-245. -/
def handleCursorMoved (s : SessionState) (d : CursorEvent) (now : Nat) : SessionState :=
  if d.user_id = getCurrentUserId s then s
  else updateCollaboratorCursor s d.user_id d.cursor_position now

/-- `handleContentChange(event, type)` lines 138-162: when active, push a
history record, then truncate with `slice(-50)` whenever the length exceeds
100.  (The debounced outbound send is modelled separately by `runDebounce`;
the typing indicator is UI only.) -/
def handleContentChange (s : SessionState) (type : String) (content : List Char)
    (now : Nat) : SessionState :=
  if !s.isActive then s
  else
    let h := s.contentHistory ++ [⟨type, content, now, getCurrentUserId s, false⟩]
    let h' := if h.length > 100 then h.drop (h.length - 50) else h
    { s with contentHistory := h' }

/-- `sendContentUpdate(content, type)` lines 171-180: no-op without a
websocket or while inactive, else emit `email_content_change`. -/
def sendContentUpdate (s : SessionState) (content : List Char) (type : String)
    (now : Nat) : SessionState :=
  if !s.hasWs || !s.isActive then s
  else { s with outbox := s.outbox ++ [OutEvent.contentChange s.emailId content type now] }

/-- `sendCursorUpdate(position)` lines 182-189. -/
def sendCursorUpdate (s : SessionState) (position : Nat) : SessionState :=
  if !s.hasWs || !s.isActive then s
  else { s with outbox := s.outbox ++ [OutEvent.cursorUpdate s.emailId position] }

/-- `pauseCollaboration()` lines 125-130: only flips `isActive` to false. -/
def pauseCollaboration (s : SessionState) : SessionState :=
  if s.isActive then { s with isActive := false } else s

/-- `leaveCollaboration()` lines 111-123: emit `leave_collaboration`,
deactivate, and clear the collaboration UI (all cursor markers and the
collaborator map). -/
def leaveCollaboration (s : SessionState) : SessionState :=
  if !s.hasWs || !s.isActive then s
  else
    { s with outbox := s.outbox ++ [OutEvent.leaveEvent s.emailId],
             isActive := false,
             markers := [],
             collaborators := [] }

/-- `canUndo()` line 538-540. -/
def canUndo (s : SessionState) : Bool := s.contentHistory.length > 1

/-- `undo()` lines 542-562: pop the most recent record; apply the content of
the now-last record verbatim to the field selected by that record's own
`type` (no cursor recomputation); return success. -/
def undo (s : SessionState) : Bool × SessionState :=
  if !canUndo s then (false, s)
  else
    let h := s.contentHistory.dropLast
    let s' := { s with contentHistory := h }
    match h.getLast? with
    | none => (false, s')
    | some prev =>
      if prev.type = "subject" then
        (true, { s' with subject := { s'.subject with value := prev.content } })
      else
        (true, { s' with body := { s'.body with value := prev.content } })

/-- Argument pair of a call to `debouncedSendContentUpdate(content, type)`. -/
structure ContentCall where
  content : List Char
  type : String
deriving DecidableEq, Repr

/-- The timer closure produced by `debounce(func, wait)` (lines 521-531):
ONE `timeout` variable shared by every call.  `runDebounce wait calls pending`
processes timestamped calls in time order against the pending timer
`(args, deadline)`; a pending timer fires (emits its args) only if its
deadline has passed before the next call, and every call clears any pending
timer and schedules its own.  The trailing pending timer fires at the end. -/
def runDebounce (wait : Nat) :
    List (Nat × ContentCall) → Option (ContentCall × Nat) → List ContentCall
  | [], none => []
  | [], some (a, _) => [a]
  | (t, a) :: rest, none => runDebounce wait rest (some (a, t + wait))
  | (t, a) :: rest, some (b, d) =>
    if d ≤ t then b :: runDebounce wait rest (some (a, t + wait))
    else runDebounce wait rest (some (a, t + wait))

/-- A fresh unauthenticated session on email "e1" with empty fields. -/
def sampleState : SessionState :=
  { emailId := "e1", hasWs := true, isActive := true, currentUser := none,
    collaborators := [], subject := ⟨[], 0⟩, body := ⟨[], 0⟩,
    contentHistory := [], markers := [], outbox := [] }

/-- A session whose history holds a subject record then a body record. -/
def undoState : SessionState :=
  { sampleState with
    contentHistory := [⟨"subject", ['S'], 1, "u1", false⟩, ⟨"body", ['B'], 2, "u1", false⟩],
    subject := ⟨['x'], 1⟩, body := ⟨['B'], 0⟩ }

/-- A session whose history holds a body record ['B','1'], then a subject
record ['S','1'], then a body record ['B','2']. -/
def mixedUndoState : SessionState :=
  { sampleState with
    contentHistory :=
      [⟨"body", ['B', '1'], 1, "u1", false⟩,
       ⟨"subject", ['S', '1'], 2, "u1", false⟩,
       ⟨"body", ['B', '2'], 3, "u1", false⟩],
    subject := ⟨['x'], 0⟩, body := ⟨['B', '2'], 0⟩ }

/-- A session whose history already holds 100 records. -/
def fullState : SessionState :=
  { sampleState with contentHistory := List.replicate 100 ⟨"body", ['a'], 0, "u0", false⟩ }

/-- A session that knows remote collaborator "u1". -/
def pausedSetupState : SessionState :=
  { sampleState with collaborators := [⟨"u1", "User One", 0, 0⟩] }

/-- An inactive session. -/
def inactiveState : SessionState := { sampleState with isActive := false }

theorem applyContentUpdate_currentUser (s : SessionState) (d : ContentEvent) :
    (applyContentUpdate s d).currentUser = s.currentUser := by
  unfold applyContentUpdate
  dsimp only
  split <;> rfl

theorem getCurrentUserId_handleContentUpdated (s : SessionState) (d : ContentEvent) :
    getCurrentUserId (handleContentUpdated s d) = getCurrentUserId s := by
  unfold handleContentUpdated
  split
  · rfl
  · unfold getCurrentUserId
    rw [applyContentUpdate_currentUser]

theorem handleContentUpdated_of_ne (s : SessionState) (d : ContentEvent)
    (h : d.user_id ≠ getCurrentUserId s) :
    handleContentUpdated s d = applyContentUpdate s d := by
  unfold handleContentUpdated
  rw [if_neg h]

theorem getCurrentUserId_foldl (es : List ContentEvent) (s : SessionState) :
    getCurrentUserId (es.foldl handleContentUpdated s) = getCurrentUserId s := by
  induction es generalizing s with
  | nil => rfl
  | cons e es ih =>
    simp only [List.foldl_cons]
    rw [ih, getCurrentUserId_handleContentUpdated]

/-- C2: after applying, in order, a sequence of inbound content-update events
whose originator ids all differ from the local user id, the field targeted by
the last event holds exactly the last event's content. -/
theorem finalValue_eq_lastEvent (s : SessionState) (es : List ContentEvent)
    (e : ContentEvent) (h : ∀ ev ∈ es ++ [e], ev.user_id ≠ getCurrentUserId s) :
    (fieldFor e.content_type ((es ++ [e]).foldl handleContentUpdated s)).value =
      e.content := by
  rw [List.foldl_append]
  simp only [List.foldl_cons, List.foldl_nil]
  have hne : e.user_id ≠ getCurrentUserId (es.foldl handleContentUpdated s) := by
    rw [getCurrentUserId_foldl]
    exact h e (by simp)
  rw [handleContentUpdated_of_ne _ _ hne]
  unfold fieldFor applyContentUpdate
  by_cases hct : e.content_type = "subject" <;> simp [hct]

/-- Witness for C2: one remote event whose content lands in the body field. -/
theorem finalValue_eq_lastEvent_witness :
    (fieldFor "body" (([] ++ [ContentEvent.mk "u1" ['h', 'i'] "body" 3]).foldl
      handleContentUpdated sampleState)).value = ['h', 'i'] :=
  finalValue_eq_lastEvent sampleState [] (ContentEvent.mk "u1" ['h', 'i'] "body" 3)
    (by decide)

/-- C5: an inbound content-update event whose originator id equals the local
user id leaves the entire session state (fields and history) unchanged. -/
theorem handleContentUpdated_self_noop (s : SessionState) (d : ContentEvent)
    (h : d.user_id = getCurrentUserId s) : handleContentUpdated s d = s := by
  unfold handleContentUpdated
  rw [if_pos h]

/-- Witness for C5: a self-originated event on a fresh anonymous session. -/
theorem handleContentUpdated_self_noop_witness :
    handleContentUpdated sampleState ⟨"anonymous", ['x'], "body", 1⟩ = sampleState :=
  handleContentUpdated_self_noop sampleState ⟨"anonymous", ['x'], "body", 1⟩ (by decide)

/-- C10: with no authenticated user the local id is the sentinel "anonymous",
so inbound content and cursor events originated by "anonymous" are treated as
self-originated and ignored — two unauthenticated clients never apply each
other's updates. -/
theorem anonymous_self_ignore (s : SessionState) (d : ContentEvent) (dc : CursorEvent)
    (now : Nat) (h : s.currentUser = none) (hd : d.user_id = "anonymous")
    (hc : dc.user_id = "anonymous") :
    getCurrentUserId s = "anonymous" ∧ handleContentUpdated s d = s ∧
    handleCursorMoved s dc now = s := by
  have hu : getCurrentUserId s = "anonymous" := by
    unfold getCurrentUserId
    rw [h]
  refine ⟨hu, ?_, ?_⟩
  · unfold handleContentUpdated
    rw [if_pos (by rw [hd, hu])]
  · unfold handleCursorMoved
    rw [if_pos (by rw [hc, hu])]

/-- Witness for C10 on the fresh unauthenticated session. -/
theorem anonymous_self_ignore_witness :
    getCurrentUserId sampleState = "anonymous" ∧
    handleContentUpdated sampleState ⟨"anonymous", ['y'], "subject", 2⟩ = sampleState ∧
    handleCursorMoved sampleState ⟨"anonymous", 4⟩ 9 = sampleState :=
  anonymous_self_ignore sampleState ⟨"anonymous", ['y'], "subject", 2⟩ ⟨"anonymous", 4⟩ 9
    rfl rfl rfl

/-- C4 amended: `undo()` on fewer than two history records returns failure
and changes nothing; on two or more it returns success, pops the most recent
record, and applies the content of the immediately preceding record — taken
regardless of field kind, with no same-kind search — verbatim to that
record's OWN field kind (the other field and both caret positions are
untouched, no cursor recomputation). -/
theorem undo_behavior (s : SessionState) :
    ((s.contentHistory.length < 2 → undo s = (false, s)) ∧
     (2 ≤ s.contentHistory.length →
       (undo s).1 = true ∧
       (undo s).2.contentHistory = s.contentHistory.dropLast ∧
       (∀ prev, s.contentHistory.dropLast.getLast? = some prev →
         (fieldFor prev.type (undo s).2).value = prev.content ∧
         (prev.type = "subject" → (undo s).2.body = s.body) ∧
         (prev.type ≠ "subject" → (undo s).2.subject = s.subject)) ∧
       (undo s).2.subject.selectionStart = s.subject.selectionStart ∧
       (undo s).2.body.selectionStart = s.body.selectionStart)) := by
  constructor
  · intro hlt
    have hcu : canUndo s = false := by
      unfold canUndo
      simp only [decide_eq_false_iff_not]
      omega
    simp [undo, hcu]
  · intro hge
    have hcu : canUndo s = true := by
      unfold canUndo
      simp only [decide_eq_true_eq]
      omega
    have hne : s.contentHistory.dropLast ≠ [] := by
      intro hnil
      have hlen := congrArg List.length hnil
      rw [List.length_dropLast] at hlen
      simp at hlen
      omega
    obtain ⟨prev, hprev⟩ : ∃ p, s.contentHistory.dropLast.getLast? = some p := by
      cases hg : s.contentHistory.dropLast.getLast? with
      | none => exact absurd (List.getLast?_eq_none_iff.mp hg) hne
      | some p => exact ⟨p, rfl⟩
    refine ⟨?_, ?_, ?_, ?_, ?_⟩
    · by_cases hty : prev.type = "subject" <;> simp [undo, hcu, hprev, hty]
    · by_cases hty : prev.type = "subject" <;> simp [undo, hcu, hprev, hty]
    · intro p hp
      have hpp : p = prev := by
        rw [hprev] at hp
        exact (Option.some.inj hp).symm
      subst hpp
      by_cases hty : p.type = "subject" <;>
        simp [undo, fieldFor, hcu, hprev, hty]
    · by_cases hty : prev.type = "subject" <;> simp [undo, hcu, hprev, hty]
    · by_cases hty : prev.type = "subject" <;> simp [undo, hcu, hprev, hty]

/-- C4 counterexample: on history [body "B1", subject "S1", body "B2"],
`undo()` pops the body record "B2"; the claim's kind-matched reading says the
preceding record FOR THAT FIELD KIND — the body record "B1" — is restored,
but the code never searches by kind: the body field keeps ['B','2'] (not
['B','1']) and the SUBJECT field is overwritten with ['S','1'] instead. -/
theorem undo_kind_counterexample :
    (undo mixedUndoState).1 = true ∧
    (undo mixedUndoState).2.body.value = ['B', '2'] ∧
    (undo mixedUndoState).2.body.value ≠ ['B', '1'] ∧
    (undo mixedUndoState).2.subject.value = ['S', '1'] ∧
    mixedUndoState.subject.value = ['x'] := by decide

/-- Witness for C4 on a two-record history (subject record then body record):
success, the body record is popped, and the subject field is restored. -/
theorem undo_behavior_witness :
    (undo undoState).1 = true ∧
    (undo undoState).2.contentHistory = undoState.contentHistory.dropLast ∧
    (fieldFor "subject" (undo undoState).2).value = ['S'] := by
  obtain ⟨-, h2⟩ := undo_behavior undoState
  obtain ⟨ha, hb, hc, -, -⟩ := h2 (by decide)
  exact ⟨ha, hb, (hc ⟨"subject", ['S'], 1, "u1", false⟩ (by decide)).1⟩

set_option maxRecDepth 40000 in
/-- C3 counterexample: 101 inbound remote content updates are each appended
by `applyContentUpdate` with no truncation whatsoever, so the history grows
to 101 entries — the claimed 100-entry cap does not hold for remote-update
application. -/
theorem history_unbounded_remote :
    100 < (((List.range 101).map (fun i => ContentEvent.mk "u1" ['x'] "body" i)).foldl
      handleContentUpdated sampleState).contentHistory.length := by decide

/-- C3 amended: only local edit capture (`handleContentChange`) bounds the
history — it keeps at most 100 entries and, when an append brings it past
100, truncates to the 50 most recent (oldest discarded first); remote-update
application (`handleContentUpdated` of a non-self event) always appends one
record with no truncation. -/
theorem history_truncation_amended (s : SessionState) (ty : String) (c : List Char)
    (now : Nat) :
    ((s.contentHistory.length ≤ 100 →
        (handleContentChange s ty c now).contentHistory.length ≤ 100) ∧
     (s.isActive = true → s.contentHistory.length = 100 →
        (handleContentChange s ty c now).contentHistory =
          (s.contentHistory ++
            [ContentRecord.mk ty c now (getCurrentUserId s) false]).drop 51) ∧
     (∀ d : ContentEvent, d.user_id ≠ getCurrentUserId s →
        (handleContentUpdated s d).contentHistory.length =
          s.contentHistory.length + 1)) := by
  refine ⟨?_, ?_, ?_⟩
  · intro h100
    cases hA : s.isActive with
    | false => simp [handleContentChange, hA, h100]
    | true =>
      simp only [handleContentChange, hA, Bool.not_true, Bool.false_eq_true, if_false]
      split
      · rename_i hgt
        rw [List.length_drop]
        omega
      · rename_i hle
        simp only [List.length_append, List.length_cons, List.length_nil] at *
        omega
  · intro hA h100
    simp only [handleContentChange, hA, Bool.not_true, Bool.false_eq_true, if_false]
    rw [if_pos (by simp [List.length_append, h100])]
    simp [List.length_append, h100]
  · intro d hd
    rw [handleContentUpdated_of_ne _ _ hd]
    unfold applyContentUpdate
    by_cases hct : d.content_type = "subject" <;> simp [hct]

/-- Witness for C3's amended claim: a 100-record history is truncated (to the
50 most recent) by a local edit, while a remote update appends a 101st. -/
theorem history_truncation_amended_witness :
    (handleContentChange fullState "body" ['y'] 7).contentHistory =
      (fullState.contentHistory ++
        [ContentRecord.mk "body" ['y'] 7 (getCurrentUserId fullState) false]).drop 51 ∧
    (handleContentUpdated fullState (ContentEvent.mk "u1" ['z'] "body" 8)).contentHistory.length =
      fullState.contentHistory.length + 1 :=
  ⟨(history_truncation_amended fullState "body" ['y'] 7).2.1 rfl (by decide),
   (history_truncation_amended fullState "body" ['y'] 7).2.2
     (ContentEvent.mk "u1" ['z'] "body" 8) (by decide)⟩

/-- C6 counterexample: from an active session knowing collaborator "u1", an
inbound cursor event displays a marker and `pauseCollaboration` then sets
`active=false` without clearing it — a reachable inactive state still
displays a remote-cursor marker, refuting "all are cleared". -/
theorem paused_marker_counterexample :
    (pauseCollaboration (handleCursorMoved pausedSetupState
      (CursorEvent.mk "u1" 3) 10)).isActive = false ∧
    (pauseCollaboration (handleCursorMoved pausedSetupState
      (CursorEvent.mk "u1" 3) 10)).markers = ["u1"] := by decide

/-- C6 amended: with `active=false` no outbound events are emitted (the send
functions are no-ops), but remote-cursor markers are NOT cleared by pausing:
`pauseCollaboration` leaves `markers` untouched; markers are cleared by
`leaveCollaboration` (from a connected, active session). -/
theorem inactive_no_outbound_amended (s : SessionState) (c : List Char) (ty : String)
    (now : Nat) (p : Nat) (h : s.isActive = false) :
    (sendContentUpdate s c ty now = s ∧ sendCursorUpdate s p = s ∧
     (∀ s' : SessionState, (pauseCollaboration s').markers = s'.markers) ∧
     (∀ s' : SessionState, s'.hasWs = true → s'.isActive = true →
        (leaveCollaboration s').markers = [])) := by
  refine ⟨?_, ?_, ?_, ?_⟩
  · simp [sendContentUpdate, h]
  · simp [sendCursorUpdate, h]
  · intro s'
    unfold pauseCollaboration
    split <;> rfl
  · intro s' h1 h2
    simp [leaveCollaboration, h1, h2]

/-- Witness for C6's amended claim on a concrete inactive session. -/
theorem inactive_no_outbound_amended_witness :
    sendContentUpdate inactiveState ['q'] "body" 3 = inactiveState ∧
    sendCursorUpdate inactiveState 7 = inactiveState :=
  ⟨(inactive_no_outbound_amended inactiveState ['q'] "body" 3 7 rfl).1,
   (inactive_no_outbound_amended inactiveState ['q'] "body" 3 7 rfl).2.1⟩

/-- C8 counterexample: an inbound event with the unrecognized field kind
"weird" is NOT dropped — it is applied to the body field and a history
record is appended, refuting "no state mutation". -/
theorem malformed_not_dropped_counterexample :
    (handleContentUpdated sampleState (ContentEvent.mk "u1" ['X'] "weird" 5)).body.value =
      ['X'] ∧
    (handleContentUpdated sampleState
      (ContentEvent.mk "u1" ['X'] "weird" 5)).contentHistory.length = 1 ∧
    sampleState.body.value = [] ∧ sampleState.contentHistory = [] := by decide

/-- C8 amended: `applyContentUpdate` performs no payload validation — every
non-self inbound event whose `content_type` is not "subject" (including
unrecognized field-kind values) is applied to the BODY field, and a history
record carrying the event's `content_type` verbatim is appended; nothing is
logged-and-dropped. -/
theorem unrecognized_type_goes_to_body (s : SessionState) (d : ContentEvent)
    (h1 : d.content_type ≠ "subject") (h2 : d.user_id ≠ getCurrentUserId s) :
    ((handleContentUpdated s d).body.value = d.content ∧
     (handleContentUpdated s d).subject = s.subject ∧
     (handleContentUpdated s d).contentHistory =
       s.contentHistory ++
         [ContentRecord.mk d.content_type d.content d.timestamp d.user_id true]) := by
  rw [handleContentUpdated_of_ne _ _ h2]
  unfold applyContentUpdate
  simp [h1]

/-- Witness for C8's amended claim: an unrecognized field kind "odd" applied
to the fresh session mutates the body field. -/
theorem unrecognized_type_goes_to_body_witness :
    (handleContentUpdated sampleState (ContentEvent.mk "u1" ['X', 'Y'] "odd" 6)).body.value =
      ['X', 'Y'] ∧
    (handleContentUpdated sampleState
        (ContentEvent.mk "u1" ['X', 'Y'] "odd" 6)).contentHistory =
      sampleState.contentHistory ++ [ContentRecord.mk "odd" ['X', 'Y'] 6 "u1" true] :=
  ⟨(unrecognized_type_goes_to_body sampleState (ContentEvent.mk "u1" ['X', 'Y'] "odd" 6)
      (by decide) (by decide)).1,
   (unrecognized_type_goes_to_body sampleState (ContentEvent.mk "u1" ['X', 'Y'] "odd" 6)
      (by decide) (by decide)).2.2⟩

/-- C9 counterexample: both fields share ONE debounce timer
(`debouncedSendContentUpdate` is constructed once, and `handleContentChange`
routes subject and body inputs through it).  A body edit at t=0 followed by a
subject edit at t=300 yields a single emission carrying only the subject
snapshot: the body field, though edited, emits zero snapshots — the claimed
per-field timers do not exist. -/
theorem shared_debounce_counterexample :
    runDebounce 500 [(0, ContentCall.mk ['B'] "body"),
        (300, ContentCall.mk ['S'] "subject")] none =
      [ContentCall.mk ['S'] "subject"] ∧
    (runDebounce 500 [(0, ContentCall.mk ['B'] "body"),
        (300, ContentCall.mk ['S'] "subject")] none).countP
      (fun c => c.type = "body") = 0 := by decide

/-- C9 amended: content debouncing uses a single timer shared by both fields;
a second input (on either field) within 500 ms cancels and replaces the
pending emission, so after quiescence exactly one snapshot is emitted,
carrying the most recent input's content and field. -/
theorem shared_debounce_coalesces (t1 t2 : Nat) (a b : ContentCall)
    (h : t2 < t1 + 500) :
    runDebounce 500 [(t1, a), (t2, b)] none = [b] ∧
    (runDebounce 500 [(t1, a), (t2, b)] none).length = 1 := by
  have hle : ¬ t1 + 500 ≤ t2 := by omega
  simp [runDebounce, hle]

/-- Witness for C9's amended claim at t=0 and t=200 on the body field. -/
theorem shared_debounce_coalesces_witness :
    runDebounce 500 [(0, ContentCall.mk ['a'] "body"),
        (200, ContentCall.mk ['b'] "body")] none = [ContentCall.mk ['b'] "body"] :=
  (shared_debounce_coalesces 0 200 (ContentCall.mk ['a'] "body")
    (ContentCall.mk ['b'] "body") (by omega)).1

end GmailCollab
